import Mathlib

/-!
Shallow embedding of two entry points of the expo-cli repository:

* `prepareJob` (src/unnamed/part_000): selects a build-job preparation
  strategy based on platform × build-type and validates the resulting job
  description against a schema.
* the eject command (src/packages/expo-cli/src/commands/eject/Eject.js):
  `ejectAsync`, `ejectToBareAsync`, `getAppNamesAsync`, `stripDashes`.

External calls (the `@expo/build-tools`, `@expo/xdl`, `fs-extra`, `pacote`,
prompt and spawn libraries) are not part of this repository's sources, so
they are modelled as fields of an environment structure whose values stand
for the results those calls return during one invocation. `Eject.js`
references `semver` without ever importing or declaring it, so the
embedding of `ejectToBareAsync` throws the corresponding `ReferenceError`
where the source does (see its doc comment). Side effects (file
reads/writes, directory copies, console output, prompts, process spawns)
are recorded in an explicit effect trace so that frame and ordering
properties can be stated.
-/

set_option autoImplicit false

namespace ExpoCli

/-- Observable side effects of one invocation, in program order.
`fsWrite`, `fsCopy` and `fsRemove` are the mutations of project files;
`consoleLog` is terminal output (chalk styling dropped); `promptUser` is an
interactive question; `spawnCmd` runs an external command. -/
inductive Effect where
  | fsRead (path : String)
  | fsWrite (path : String)
  | fsCopy (src dst : String)
  | fsRemove (path : String)
  | consoleLog (msg : String)
  | promptUser (what : String)
  | spawnCmd (cmd : String)
  | accountLogin
  | detachRun
  deriving Repr, DecidableEq

/-- An effect that modifies files on disk (writes, directory copies,
deletions). Console output, reads, prompts and spawned commands are not
file mutations. -/
def Effect.isMutation : Effect → Bool
  | .fsWrite _ => true
  | .fsCopy _ _ => true
  | .fsRemove _ => true
  | _ => false

/-- JavaScript truthiness of an optional string: `undefined` and the empty
string are falsy, every other string is truthy. -/
def truthyOpt : Option String → Bool
  | none => false
  | some s => !s.isEmpty

/-! ### part_000: build-job preparation (`prepareJob`, `validateJob`)

`Platform` and `BuildType` are TypeScript string enums imported from
`@expo/build-tools`; a `switch` on them compares the underlying string
values, so they are embedded as strings with the enum members as named
constants. -/

namespace Platform

def Android : String := "android"

def iOS : String := "ios"

end Platform

namespace BuildType

def Generic : String := "generic"

def Managed : String := "managed"

end BuildType

/-- The `Options` argument of `prepareJob`: `{ platform: Platform }`. -/
structure Options where
  platform : String
  deriving Repr, DecidableEq

/-- The build config object returned by `BuildConfig.read(projectDir)`
(`turtleJson` in the source); only its `type` field is inspected. -/
structure TurtleConfig where
  type : String
  deriving Repr, DecidableEq

/-- The `{ value, error }` record returned by `JobSchema.validate(job)`. -/
structure ValidationResult (Job Err : Type) where
  value : Job
  error : Option Err
  deriving Repr, DecidableEq

/-- Results of the external `@expo/build-tools` calls made by `prepareJob`
during one invocation: `BuildConfig.read`, the four platform×type job
preparation functions, and `JobSchema.validate`. -/
structure BuildToolsEnv (Job Err : Type) where
  read : String → TurtleConfig
  prepareAndroidGenericJob : TurtleConfig → String → String → Job
  prepareAndroidManagedJob : TurtleConfig → String → String → Job
  prepareiOSGenericJob : TurtleConfig → String → String → Job
  prepareiOSManagedJob : TurtleConfig → String → String → Job
  validate : Job → ValidationResult Job Err

/-- Errors thrown by `prepareJob`: either the error reported by
`JobSchema.validate`, or one of the `new Error(...)` messages of the
`default` switch branches. -/
inductive PrepError (Err : Type) where
  | schema (e : Err)
  | message (s : String)
  deriving Repr, DecidableEq

/-- Embeds `validateJob(job)`: logs the job, runs `JobSchema.validate`, returns the
validated `value` when no `error` is reported and throws the error
otherwise. -/
def validateJob {Job Err : Type} (env : BuildToolsEnv Job Err) (job : Job) :
    Except (PrepError Err) Job × List Effect :=
  let r := env.validate job
  match r.error with
  | some e => (.error (.schema e), [Effect.consoleLog "job"])
  | none => (.ok r.value, [Effect.consoleLog "job"])

/-- Embeds `prepareJob(options, projectUrl, projectDir)`: reads the build config
from `projectDir`, then switches on `options.platform` and on the config's
`type`, returning the matching prepared job passed through `validateJob`;
unmatched platforms and build types throw. -/
def prepareJob {Job Err : Type} (env : BuildToolsEnv Job Err) (options : Options)
    (projectUrl projectDir : String) : Except (PrepError Err) Job × List Effect :=
  let turtleJson := env.read projectDir
  let readEff := [Effect.fsRead projectDir]
  if options.platform = Platform.Android then
    if turtleJson.type = BuildType.Generic then
      let v := validateJob env (env.prepareAndroidGenericJob turtleJson projectUrl projectDir)
      (v.fst, readEff ++ v.snd)
    else if turtleJson.type = BuildType.Managed then
      let v := validateJob env (env.prepareAndroidManagedJob turtleJson projectUrl projectDir)
      (v.fst, readEff ++ v.snd)
    else
      (.error (.message "Unsupported build type"), readEff)
  else if options.platform = Platform.iOS then
    if turtleJson.type = BuildType.Generic then
      let v := validateJob env (env.prepareiOSGenericJob turtleJson projectUrl projectDir)
      (v.fst, readEff ++ v.snd)
    else if turtleJson.type = BuildType.Managed then
      let v := validateJob env (env.prepareiOSManagedJob turtleJson projectUrl projectDir)
      (v.fst, readEff ++ v.snd)
    else
      (.error (.message "Unsupported build type"), readEff)
  else
    (.error (.message "Unsupported platform"), readEff)

/-! ### Eject.js: `stripDashes` -/

/-- The loop condition of `stripDashes`: `c !== ' ' && c !== '-'`. -/
def keepChar (c : Char) : Bool :=
  c != ' ' && c != '-'

/-- The `for (let c of s)` loop of `stripDashes`, carrying the accumulator
`ret`; each kept character is appended with `ret += c`. -/
def stripDashesLoop : List Char → String → String
  | [], ret => ret
  | c :: rest, ret => stripDashesLoop rest (if keepChar c then ret.push c else ret)

/-- Embeds `stripDashes(s)`: builds `ret` from `''` by the character loop. -/
def stripDashes (s : String) : String :=
  stripDashesLoop s.data ""

/-- Fuel-bounded version of the `stripDashes` character loop: consumes one
unit of fuel per loop iteration and gives up (`none`) when the fuel runs
out before the input does. -/
def stripDashesFuel : Nat → List Char → String → Option String
  | _, [], ret => some ret
  | 0, _ :: _, _ => none
  | fuel + 1, c :: rest, ret =>
      stripDashesFuel fuel rest (if keepChar c then ret.push c else ret)

/-! ### Eject.js: data read from the project -/

/-- The `EXPO_APP_ENTRY` constant, `node_modules/expo/AppEntry.js`. -/
def EXPO_APP_ENTRY : String := "node_modules/expo/AppEntry.js"

/-- The `expo` object of `app.json`; only its `entryPoint` field is used. -/
structure ExpoSection where
  entryPoint : Option String
  deriving Repr, DecidableEq

/-- The parsed `app.json` object; absent JSON keys are `none`. -/
structure AppJson where
  displayName : Option String
  name : Option String
  expo : Option ExpoSection
  deriving Repr, DecidableEq

/-- The `{}` object used when the project's config file is not `app.json`. -/
def AppJson.empty : AppJson := ⟨none, none, none⟩

/-- The parsed `exp` config returned by `readConfigJsonAsync`; the eject
code uses its `sdkVersion` and `name` fields. -/
structure ExpConfig where
  sdkVersion : String
  name : String
  deriving Repr, DecidableEq

/-- The parsed `package.json`; the eject code reads `name` and rewrites
`scripts`, `dependencies` and `main`. -/
structure PkgJson where
  name : Option String
  deriving Repr, DecidableEq

/-- Results of the external calls made by `ejectToBareAsync` and
`getAppNamesAsync` during one invocation: config discovery and parsing,
the version check, the would-be template-manifest fetch, and the
interactive prompt answers. -/
structure EjectEnv where
  /-- Result of `ConfigUtils.isUsingYarn(projectRoot)`. -/
  useYarn : Bool
  /-- The `configName` from `ConfigUtils.findConfigFileAsync(projectRoot)`. -/
  configName : String
  /-- The `configPath` from `ConfigUtils.findConfigFileAsync(projectRoot)`. -/
  configPath : String
  /-- The `exp` config from `readConfigJsonAsync`; `none` when it is falsy. -/
  expConfig : Option ExpConfig
  /-- The `pkg` object from `readConfigJsonAsync`; `none` when it is falsy. -/
  pkgJson : Option PkgJson
  /-- The parsed contents of `configPath` when `configName` is `app.json`. -/
  appJsonOnDisk : AppJson
  /-- Result of `Versions.gteSdkVersion(exp, '33.0.0')`. -/
  gteSdk33 : Bool
  /-- Whether `pacote.manifest(templateSpec)` would resolve without
  throwing. The staged source never reaches that call — `ejectToBareAsync`
  throws at Eject.js:121 first (see its definition) — but the field lets
  claims about the manifest-fetch failure mode be stated. -/
  manifestFetchOk : Bool
  /-- The `displayName` answer of the `getAppNamesAsync` prompt. -/
  promptedDisplayName : String
  /-- The `name` answer of the `getAppNamesAsync` prompt. -/
  promptedName : String
  deriving Repr, DecidableEq

/-- How one invocation of an eject entry point ends: normal return, a
thrown error carrying its message, or `process.exit(code)`. -/
inductive EjectOutcome where
  | ok
  | threw (msg : String)
  | exited (code : Nat)
  deriving Repr, DecidableEq

/-- Embeds `getAppNamesAsync(projectRoot)`: re-reads the project config, takes
`displayName` and `name` from `app.json` (or from `{}` when the config file
is not `app.json`), and prompts for both exactly when `!displayName ||
!name`. -/
def getAppNamesAsync (env : EjectEnv) : (String × String) × List Effect :=
  let appJson := if env.configName = "app.json" then env.appJsonOnDisk else AppJson.empty
  let readEffs := [Effect.fsRead env.configPath]
  if !truthyOpt appJson.displayName || !truthyOpt appJson.name then
    ((env.promptedDisplayName, env.promptedName),
      readEffs ++
        [Effect.consoleLog
            "We have a couple of questions to ask you about how you'd like to name your app:",
          Effect.promptUser "displayName,name"])
  else
    ((appJson.displayName.getD "", appJson.name.getD ""), readEffs)

/-- Embeds `ejectToBareAsync(projectRoot, options)` as the staged source
executes it: reads the project config and package.json, throws when either
is unreadable or the SDK version is below 33.0.0, and then — on every run
that passes the SDK check — throws a `ReferenceError` at Eject.js:121,
because that line evaluates `semver.major(exp.sdkVersion)` and `Eject.js`
never imports or declares `semver`. The template-manifest check, the
`app.json` customization and write, the template extraction and copies
with their rollback-guidance catch block, the `package.json` and
`index.js` writes and the reinstall (lines 122-214) are unreachable dead
code, so they have no branch here. -/
def ejectToBareAsync (env : EjectEnv) : EjectOutcome × List Effect :=
  let readEffs := [Effect.fsRead env.configPath]
  match env.expConfig with
  | none => (.threw ("Couldn't read " ++ env.configName), readEffs)
  | some _ =>
  match env.pkgJson with
  | none => (.threw "Couldn't read package.json", readEffs)
  | some _ =>
  if !env.gteSdk33 then
    (.threw "Ejecting to a bare project is only available for SDK 33 and higher", readEffs)
  else
    (.threw "ReferenceError: semver is not defined", readEffs)

/-- Results of the external calls made by `ejectAsync` itself: the
`git status --porcelain` spawn (`none` when it throws, e.g. no git), the
`--eject-method` option, and the eject-method prompt answer, plus the
environment of the nested `ejectToBareAsync` call. -/
structure EjectAsyncEnv where
  gitStatus : Option String
  optionsEjectMethod : Option String
  promptedMethod : String
  bare : EjectEnv
  deriving Repr, DecidableEq

/-- The git-working-tree preamble of `ejectAsync`: spawns
`git status --porcelain` and prints one of three advisory messages. -/
def gitPreamble (gitStatus : Option String) : List Effect :=
  Effect.spawnCmd "git status --porcelain" ::
    (match gitStatus with
      | some out =>
          if out = "" then
            [Effect.consoleLog "Your git working tree is clean",
              Effect.consoleLog
                "To revert the changes from ejecting later, you can use these commands:",
              Effect.consoleLog "  git clean --force && git reset --hard"]
          else
            [Effect.consoleLog "Warning! Your git working tree is dirty.",
              Effect.consoleLog
                "It's recommended to commit all your changes before proceeding,\nso you can revert the changes made by this command if necessary."]
      | none =>
          [Effect.consoleLog "We couldn't find a git repository in your project directory.",
            Effect.consoleLog "It's recommended to back up your project before proceeding."]) ++
      [Effect.consoleLog ""]

/-- The eject method `ejectAsync` acts on:
`options.ejectMethod || (await prompt(questions, ...)).ejectMethod`. -/
def resolvedMethod (env : EjectAsyncEnv) : String :=
  if truthyOpt env.optionsEjectMethod then env.optionsEjectMethod.getD ""
  else env.promptedMethod

/-- Everything `ejectAsync` does before dispatching on the eject method:
the git preamble plus, when `options.ejectMethod` is falsy, the
eject-method prompt. -/
def ejectPreamble (env : EjectAsyncEnv) : List Effect :=
  gitPreamble env.gitStatus ++
    (if truthyOpt env.optionsEjectMethod then [] else [Effect.promptUser "ejectMethod"])

/-- Embeds `ejectAsync(projectRoot, options)`: prints the git preamble, resolves
the eject method (prompting when the option is absent), then dispatches:
`bare` runs `ejectToBareAsync`, `expokit` logs in and runs the ExpoKit
detach, `cancel` returns early, anything else throws; the success message
is printed after a completed bare or expokit eject. -/
def ejectAsync (env : EjectAsyncEnv) : EjectOutcome × List Effect :=
  let pre := ejectPreamble env
  let ejectMethod := resolvedMethod env
  if ejectMethod = "bare" then
    match ejectToBareAsync env.bare with
    | (.ok, effs) =>
        (.ok, pre ++ effs ++ [Effect.consoleLog "Ejected successfully!"])
    | (.threw msg, effs) => (.threw msg, pre ++ effs)
    | (.exited code, effs) => (.exited code, pre ++ effs)
  else if ejectMethod = "expokit" then
    (.ok,
      pre ++ [Effect.accountLogin, Effect.detachRun, Effect.consoleLog "Ejected successfully!"])
  else if ejectMethod = "cancel" then
    (.ok, pre ++ [Effect.consoleLog "OK! If you change your mind you can run this command again."])
  else
    (.threw
        ("Unrecognized eject method \"" ++ ejectMethod ++
          "\". Valid options are: bare, expokit."),
      pre)

/-! ### Concrete sample environments (used to instantiate the theorems) -/

/-- A concrete build-tools environment over `Job := Nat`, `Err := Nat`:
every project reads as a generic build config and validation always
succeeds. -/
def sampleBuildEnv : BuildToolsEnv Nat Nat where
  read := fun _ => ⟨"generic"⟩
  prepareAndroidGenericJob := fun _ _ _ => 1
  prepareAndroidManagedJob := fun _ _ _ => 2
  prepareiOSGenericJob := fun _ _ _ => 3
  prepareiOSManagedJob := fun _ _ _ => 4
  validate := fun j => ⟨j, none⟩

/-- A second build-tools environment that behaves like `sampleBuildEnv` on
the project directory `"proj"` but differs elsewhere. -/
def sampleBuildEnv2 : BuildToolsEnv Nat Nat where
  read := fun d => if d = "proj" then ⟨"generic"⟩ else ⟨"other"⟩
  prepareAndroidGenericJob := fun _ _ _ => 1
  prepareAndroidManagedJob := fun _ _ _ => 2
  prepareiOSGenericJob := fun _ _ _ => 3
  prepareiOSManagedJob := fun _ _ _ => 4
  validate := fun j => ⟨j, none⟩

/-- A concrete eject environment in which every validation passes: a
readable `app.json` and package.json, SDK version 33.0.0, names already
configured, and an available template manifest. -/
def sdk33Env : EjectEnv where
  useYarn := false
  configName := "app.json"
  configPath := "/proj/app.json"
  expConfig := some ⟨"33.0.0", "myapp"⟩
  pkgJson := some ⟨some "my-app"⟩
  appJsonOnDisk := ⟨some "My App", some "MyApp", some ⟨none⟩⟩
  gteSdk33 := true
  manifestFetchOk := true
  promptedDisplayName := "My App"
  promptedName := "MyApp"

/-- Variant of `sdk33Env` with an unreadable project config. -/
def failingEjectEnv : EjectEnv := { sdk33Env with expConfig := none }

/-- A concrete `ejectAsync` environment whose `--eject-method` option is
the unrecognized value `foo`. -/
def sampleEjectAsyncEnv : EjectAsyncEnv where
  gitStatus := some ""
  optionsEjectMethod := some "foo"
  promptedMethod := "bare"
  bare := sdk33Env

/-! ### Helper lemmas -/

theorem stripDashesLoop_eq (cs : List Char) (ret : String) :
    stripDashesLoop cs ret = ⟨ret.data ++ cs.filter keepChar⟩ := by
  induction cs generalizing ret with
  | nil => simp [stripDashesLoop]
  | cons c rest ih =>
    by_cases h : keepChar c
    · simp [stripDashesLoop, h, ih, String.push]
    · simp [stripDashesLoop, h, ih]

theorem stripDashes_eq_filter (s : String) :
    stripDashes s = ⟨s.data.filter keepChar⟩ := by
  simpa using stripDashesLoop_eq s.data ""

theorem stripDashesFuel_eq (cs : List Char) (fuel : Nat) (ret : String)
    (h : cs.length ≤ fuel) :
    stripDashesFuel fuel cs ret = some (stripDashesLoop cs ret) := by
  induction cs generalizing fuel ret with
  | nil => cases fuel <;> simp [stripDashesFuel, stripDashesLoop]
  | cons c rest ih =>
    cases fuel with
    | zero => simp at h
    | succ n =>
      simp only [List.length_cons, Nat.succ_le_succ_iff] at h
      simp [stripDashesFuel, stripDashesLoop, ih _ _ h]

theorem validateJob_snd {Job Err : Type} (env : BuildToolsEnv Job Err) (job : Job) :
    (validateJob env job).snd = [Effect.consoleLog "job"] := by
  cases h : (env.validate job).error <;> simp [validateJob, h]

theorem validateJob_ok_inv {Job Err : Type} (env : BuildToolsEnv Job Err) (job j : Job)
    (h : (validateJob env job).fst = .ok j) :
    (env.validate job).error = none ∧ j = (env.validate job).value := by
  cases herr : (env.validate job).error with
  | none =>
    refine ⟨rfl, ?_⟩
    simp [validateJob, herr] at h
    exact h.symm
  | some e => simp [validateJob, herr] at h

/-! ### Claim theorems -/

/-- Claim C8: `prepareJob` throws `'Unsupported platform'` for every
platform other than `Platform.Android` and `Platform.iOS`, and throws
`'Unsupported build type'` for either supported platform when the build
config's type is neither `BuildType.Generic` nor `BuildType.Managed`. -/
theorem prepareJob_unsupported {Job Err : Type} (env : BuildToolsEnv Job Err)
    (options : Options) (projectUrl projectDir : String) :
    (options.platform ≠ Platform.Android → options.platform ≠ Platform.iOS →
        (prepareJob env options projectUrl projectDir).fst =
          .error (.message "Unsupported platform")) ∧
      ((options.platform = Platform.Android ∨ options.platform = Platform.iOS) →
        (env.read projectDir).type ≠ BuildType.Generic →
        (env.read projectDir).type ≠ BuildType.Managed →
        (prepareJob env options projectUrl projectDir).fst =
          .error (.message "Unsupported build type")) := by
  constructor
  · intro h1 h2
    simp [prepareJob, h1, h2]
  · rintro (hp | hp) ht1 ht2 <;> simp [prepareJob, hp, ht1, ht2]

/-- Claim C1: for every supported platform and build type, `prepareJob`
returns the job produced by the matching platform-and-type preparation
function passed through `validateJob`; `validateJob` returns the
schema-validated value exactly when `JobSchema.validate` reports no error
and throws the reported error otherwise; hence every job `prepareJob`
returns comes out of a validation that reported no error. -/
theorem prepareJob_dispatch_validates {Job Err : Type} (env : BuildToolsEnv Job Err)
    (options : Options) (projectUrl projectDir : String)
    (hp : options.platform = Platform.Android ∨ options.platform = Platform.iOS)
    (ht : (env.read projectDir).type = BuildType.Generic ∨
      (env.read projectDir).type = BuildType.Managed) :
    (prepareJob env options projectUrl projectDir).fst =
        (validateJob env
          (if options.platform = Platform.Android then
            if (env.read projectDir).type = BuildType.Generic then
              env.prepareAndroidGenericJob (env.read projectDir) projectUrl projectDir
            else env.prepareAndroidManagedJob (env.read projectDir) projectUrl projectDir
          else
            if (env.read projectDir).type = BuildType.Generic then
              env.prepareiOSGenericJob (env.read projectDir) projectUrl projectDir
            else env.prepareiOSManagedJob (env.read projectDir) projectUrl projectDir)).fst ∧
      (∀ job : Job,
        ((env.validate job).error = none →
          (validateJob env job).fst = .ok (env.validate job).value) ∧
        ∀ e, (env.validate job).error = some e →
          (validateJob env job).fst = .error (.schema e)) ∧
      ∀ j, (prepareJob env options projectUrl projectDir).fst = .ok j →
        ∃ job0, (env.validate job0).error = none ∧ j = (env.validate job0).value := by
  have hand : Platform.iOS ≠ Platform.Android := by decide
  have hmg : BuildType.Managed ≠ BuildType.Generic := by decide
  refine ⟨?_, ?_, ?_⟩
  · rcases hp with hp | hp <;> rcases ht with ht | ht <;>
      simp [prepareJob, hp, ht, hand, hmg]
  · intro job
    exact ⟨fun h => by simp [validateJob, h], fun e h => by simp [validateJob, h]⟩
  · intro j hj
    rcases hp with hp | hp <;> rcases ht with ht | ht <;>
        simp [prepareJob, hp, ht, hand, hmg] at hj <;>
      exact ⟨_, (validateJob_ok_inv _ _ _ hj).1, (validateJob_ok_inv _ _ _ hj).2⟩

/-- Claim C6: `prepareJob` is stateless and deterministic — two
invocations that receive the same arguments and for which the external
calls return the same values (the same build config read from
`projectDir`, the same prepared jobs, the same validation results) produce
identical results, whatever else differs between the two invocations'
environments; no mutable module-level state can influence the outcome. -/
theorem prepareJob_stateless {Job Err : Type} (e1 e2 : BuildToolsEnv Job Err)
    (options : Options) (projectUrl projectDir : String)
    (hread : e1.read projectDir = e2.read projectDir)
    (hag : e1.prepareAndroidGenericJob (e1.read projectDir) projectUrl projectDir =
      e2.prepareAndroidGenericJob (e2.read projectDir) projectUrl projectDir)
    (ham : e1.prepareAndroidManagedJob (e1.read projectDir) projectUrl projectDir =
      e2.prepareAndroidManagedJob (e2.read projectDir) projectUrl projectDir)
    (hig : e1.prepareiOSGenericJob (e1.read projectDir) projectUrl projectDir =
      e2.prepareiOSGenericJob (e2.read projectDir) projectUrl projectDir)
    (him : e1.prepareiOSManagedJob (e1.read projectDir) projectUrl projectDir =
      e2.prepareiOSManagedJob (e2.read projectDir) projectUrl projectDir)
    (hval : ∀ j, e1.validate j = e2.validate j) :
    prepareJob e1 options projectUrl projectDir = prepareJob e2 options projectUrl projectDir := by
  have hvj : ∀ job1 job2 : Job, job1 = job2 → validateJob e1 job1 = validateJob e2 job2 := by
    intro j1 j2 h
    subst h
    simp [validateJob, hval j1]
  rw [← hread] at hag ham hig him
  simp only [prepareJob, ← hread]
  split_ifs <;>
    simp [hvj _ _ hag, hvj _ _ ham, hvj _ _ hig, hvj _ _ him]

/-- Claim C10: `stripDashes(s)` equals the subsequence of `s` obtained by
removing every `'-'` and `' '` character, preserving the order of the other
characters, and consequently `stripDashes` is idempotent. -/
theorem stripDashes_filter_and_idem (s : String) :
    stripDashes s = ⟨s.data.filter (fun c => c != '-' && c != ' ')⟩ ∧
      stripDashes (stripDashes s) = stripDashes s := by
  constructor
  · rw [stripDashes_eq_filter]
    congr 1
    exact List.filter_congr (fun c _ => by simp [keepChar, Bool.and_comm])
  · simp only [stripDashes_eq_filter, List.filter_filter]
    congr 1
    exact List.filter_congr (fun c _ => by simp)

/-- Claim C7: each entry point terminates in a single bounded pass: the
`stripDashes` character loop completes within `s.length` iterations and its
output is no longer than its input, while `prepareJob` performs no loop at
all — its whole effect trace has at most two entries. -/
theorem singlePass_termination {Job Err : Type} (env : BuildToolsEnv Job Err)
    (options : Options) (projectUrl projectDir : String) (s : String) :
    stripDashesFuel s.length s.data "" = some (stripDashes s) ∧
      (stripDashes s).length ≤ s.length ∧
      (prepareJob env options projectUrl projectDir).snd.length ≤ 2 := by
  refine ⟨stripDashesFuel_eq s.data s.length "" (Nat.le_refl _), ?_, ?_⟩
  · rw [stripDashes_eq_filter]
    exact List.length_filter_le _ _
  · simp only [prepareJob]
    split_ifs <;> simp [validateJob_snd]

/-- Claim C2: `ejectToBareAsync` exits early on every validation failure —
whenever the project config or package.json cannot be read, the SDK
version is below 33.0.0, or the bare template manifest cannot be fetched,
it throws before any file-modifying effect, leaving the project
unchanged. -/
theorem ejectToBare_failfast (env : EjectEnv)
    (_h : env.expConfig = none ∨ env.pkgJson = none ∨ env.gteSdk33 = false ∨
      env.manifestFetchOk = false) :
    (∃ msg, (ejectToBareAsync env).fst = .threw msg) ∧
      ∀ e ∈ (ejectToBareAsync env).snd, e.isMutation = false := by
  rcases hE : env.expConfig with _ | exp
  · refine ⟨⟨"Couldn't read " ++ env.configName, by simp [ejectToBareAsync, hE]⟩, ?_⟩
    intro e he
    simp [ejectToBareAsync, hE] at he
    simp [he, Effect.isMutation]
  rcases hP : env.pkgJson with _ | p
  · refine ⟨⟨"Couldn't read package.json", by simp [ejectToBareAsync, hE, hP]⟩, ?_⟩
    intro e he
    simp [ejectToBareAsync, hE, hP] at he
    simp [he, Effect.isMutation]
  cases hG : env.gteSdk33
  · refine ⟨⟨"Ejecting to a bare project is only available for SDK 33 and higher",
      by simp [ejectToBareAsync, hE, hP, hG]⟩, ?_⟩
    intro e he
    simp [ejectToBareAsync, hE, hP, hG] at he
    simp [he, Effect.isMutation]
  · refine ⟨⟨"ReferenceError: semver is not defined",
      by simp [ejectToBareAsync, hE, hP, hG]⟩, ?_⟩
    intro e he
    simp [ejectToBareAsync, hE, hP, hG] at he
    simp [he, Effect.isMutation]

/-- Claim C4: `getAppNamesAsync` prompts only for missing configuration —
when `app.json` already holds a non-empty `displayName` and a non-empty
`name` it returns them unchanged with no prompt, and it prompts exactly
when at least one of the two is absent or empty. -/
theorem getAppNames_prompts_iff_missing (env : EjectEnv)
    (hc : env.configName = "app.json") :
    (truthyOpt env.appJsonOnDisk.displayName = true →
        truthyOpt env.appJsonOnDisk.name = true →
        getAppNamesAsync env =
          ((env.appJsonOnDisk.displayName.getD "", env.appJsonOnDisk.name.getD ""),
            [Effect.fsRead env.configPath])) ∧
      (Effect.promptUser "displayName,name" ∈ (getAppNamesAsync env).snd ↔
        (truthyOpt env.appJsonOnDisk.displayName = false ∨
          truthyOpt env.appJsonOnDisk.name = false)) := by
  constructor
  · intro h1 h2
    simp [getAppNamesAsync, hc, h1, h2]
  · cases h1 : truthyOpt env.appJsonOnDisk.displayName <;>
      cases h2 : truthyOpt env.appJsonOnDisk.name <;>
      simp [getAppNamesAsync, hc, h1, h2]

/-- Claim C3 (code bug): the rollback-guidance catch block of the template
extraction step is dead code. On a project that passes every validation
(`sdk33Env`), the run throws the `semver` `ReferenceError` of Eject.js:121
while performing no file mutation; it never prints the rollback guidance
about deleting the `ios` and/or `android` directories and never exits with
code 1, contrary to the behaviour the claim — and the catch block's own
code at lines 160-165 — describe. -/
theorem ejectToBare_semver_dead_code :
    (ejectToBareAsync sdk33Env).fst = .threw "ReferenceError: semver is not defined" ∧
      (ejectToBareAsync sdk33Env).snd.all (fun e => !e.isMutation) = true ∧
      Effect.consoleLog "You may want to delete the `ios` and/or `android` directories." ∉
        (ejectToBareAsync sdk33Env).snd ∧
      (ejectToBareAsync sdk33Env).fst ≠ .exited 1 := by
  decide

theorem success_not_mem_preamble (env : EjectAsyncEnv) :
    Effect.consoleLog "Ejected successfully!" ∉ ejectPreamble env := by
  rcases h : env.gitStatus with _ | out
  · by_cases ho : truthyOpt env.optionsEjectMethod = true <;>
      simp [ejectPreamble, gitPreamble, h, ho]
  · by_cases hout : out = "" <;> by_cases ho : truthyOpt env.optionsEjectMethod = true <;>
      simp [ejectPreamble, gitPreamble, h, hout, ho]

/-- Claim C9: `ejectAsync` dispatches exhaustively on the resolved eject
method — `bare` runs the bare eject (propagating its outcome and printing
the success message only on normal completion), `expokit` logs in and runs
the ExpoKit detach, `cancel` returns without ejecting and without the
success message, and any other method throws an error naming the value and
the valid options. -/
theorem ejectAsync_dispatch (env : EjectAsyncEnv) :
    (resolvedMethod env = "bare" →
        ejectAsync env =
          ((ejectToBareAsync env.bare).fst,
            ejectPreamble env ++ (ejectToBareAsync env.bare).snd ++
              (if (ejectToBareAsync env.bare).fst = .ok then
                [Effect.consoleLog "Ejected successfully!"]
              else []))) ∧
      (resolvedMethod env = "expokit" →
        ejectAsync env =
          (.ok, ejectPreamble env ++
            [Effect.accountLogin, Effect.detachRun,
              Effect.consoleLog "Ejected successfully!"])) ∧
      (resolvedMethod env = "cancel" →
        ejectAsync env =
          (.ok, ejectPreamble env ++
            [Effect.consoleLog "OK! If you change your mind you can run this command again."]) ∧
          Effect.consoleLog "Ejected successfully!" ∉ (ejectAsync env).snd) ∧
      (resolvedMethod env ≠ "bare" → resolvedMethod env ≠ "expokit" →
        resolvedMethod env ≠ "cancel" →
        ejectAsync env =
          (.threw ("Unrecognized eject method \"" ++ resolvedMethod env ++
              "\". Valid options are: bare, expokit."),
            ejectPreamble env)) := by
  have hxb : ("expokit" : String) ≠ "bare" := by decide
  have hcb : ("cancel" : String) ≠ "bare" := by decide
  have hcx : ("cancel" : String) ≠ "expokit" := by decide
  refine ⟨?_, ?_, ?_, ?_⟩
  · intro h
    rcases hb : ejectToBareAsync env.bare with ⟨o, effs⟩
    cases o <;> simp [ejectAsync, h, hb]
  · intro h
    simp [ejectAsync, h, hxb]
  · intro h
    have heq : ejectAsync env =
        (.ok, ejectPreamble env ++
          [Effect.consoleLog "OK! If you change your mind you can run this command again."]) := by
      simp [ejectAsync, h, hcb, hcx]
    refine ⟨heq, ?_⟩
    rw [heq]
    simp [success_not_mem_preamble env]
  · intro h1 h2 h3
    simp [ejectAsync, h1, h2, h3]

/-- Claim C5: no invocation creates persistent entities — `prepareJob`
only reads from `projectDir` and its trace holds no file mutation, and the
eject procedure persists no state beyond the invocation either: every run
of `ejectToBareAsync` throws (at a validation or at the unbound `semver`
reference of Eject.js:121) before reaching any of the write statements, so
its trace never contains a file mutation and the configuration objects are
consumed and discarded in memory. -/
theorem no_persistent_state {Job Err : Type} (env : BuildToolsEnv Job Err)
    (options : Options) (projectUrl projectDir : String) (envE : EjectEnv) :
    (prepareJob env options projectUrl projectDir).snd.all (fun e => !e.isMutation) = true ∧
      (ejectToBareAsync envE).snd.all (fun e => !e.isMutation) = true := by
  constructor
  · simp only [prepareJob]
    split_ifs <;> simp [validateJob_snd, Effect.isMutation]
  · rcases hE : envE.expConfig with _ | exp
    · simp [ejectToBareAsync, hE, Effect.isMutation]
    rcases hP : envE.pkgJson with _ | p
    · simp [ejectToBareAsync, hE, hP, Effect.isMutation]
    cases hG : envE.gteSdk33 <;>
      simp [ejectToBareAsync, hE, hP, hG, Effect.isMutation]

/-! ### Witnesses: the claim theorems instantiated at concrete inputs -/

theorem prepareJob_dispatch_validates_witness :
    (prepareJob sampleBuildEnv ⟨Platform.Android⟩ "url" "proj").fst =
      (validateJob sampleBuildEnv
        (if (Options.mk Platform.Android).platform = Platform.Android then
          if (sampleBuildEnv.read "proj").type = BuildType.Generic then
            sampleBuildEnv.prepareAndroidGenericJob (sampleBuildEnv.read "proj") "url" "proj"
          else sampleBuildEnv.prepareAndroidManagedJob (sampleBuildEnv.read "proj") "url" "proj"
        else
          if (sampleBuildEnv.read "proj").type = BuildType.Generic then
            sampleBuildEnv.prepareiOSGenericJob (sampleBuildEnv.read "proj") "url" "proj"
          else sampleBuildEnv.prepareiOSManagedJob (sampleBuildEnv.read "proj") "url"
            "proj")).fst :=
  (prepareJob_dispatch_validates sampleBuildEnv ⟨Platform.Android⟩ "url" "proj"
    (Or.inl rfl) (Or.inl rfl)).1

theorem ejectToBare_failfast_witness :
    failingEjectEnv.expConfig = none ∧
      Effect.isMutation (Effect.fsRead "/proj/app.json") = false := by
  have h := ejectToBare_failfast failingEjectEnv (Or.inl rfl)
  exact ⟨rfl, h.2 (Effect.fsRead "/proj/app.json") (by decide)⟩

theorem getAppNames_prompts_iff_missing_witness :
    getAppNamesAsync sdk33Env =
      (("My App", "MyApp"), [Effect.fsRead "/proj/app.json"]) := by
  have h := (getAppNames_prompts_iff_missing sdk33Env rfl).1 (by decide) (by decide)
  exact h.trans (by decide)

theorem prepareJob_stateless_witness :
    prepareJob sampleBuildEnv ⟨Platform.Android⟩ "url" "proj" =
      prepareJob sampleBuildEnv2 ⟨Platform.Android⟩ "url" "proj" :=
  prepareJob_stateless sampleBuildEnv sampleBuildEnv2 ⟨Platform.Android⟩ "url" "proj"
    (by decide) (by decide) (by decide) (by decide) (by decide) (fun _ => rfl)

theorem prepareJob_unsupported_witness :
    (prepareJob sampleBuildEnv ⟨"windows"⟩ "url" "proj").fst =
      .error (.message "Unsupported platform") :=
  (prepareJob_unsupported sampleBuildEnv ⟨"windows"⟩ "url" "proj").1 (by decide) (by decide)

theorem ejectAsync_dispatch_witness :
    ejectAsync sampleEjectAsyncEnv =
      (.threw "Unrecognized eject method \"foo\". Valid options are: bare, expokit.",
        ejectPreamble sampleEjectAsyncEnv) := by
  have h := (ejectAsync_dispatch sampleEjectAsyncEnv).2.2.2 (by decide) (by decide) (by decide)
  exact h.trans (by decide)

end ExpoCli
